import Mathlib

/-!
Shallow embedding of the availability/slot-scheduling engine of the
calendar-agent repository (src/backend/calendar_utils.py and
src/backend/agent.py), together with theorems settling the spec claims.

Modelling conventions:
* An instant is an `Int`, counting minutes on an absolute time axis.
  Timezone-aware datetimes compare by absolute time, and `astimezone`
  preserves the instant, so converting a busy interval to the calendar
  timezone leaves its numeric endpoints unchanged in this model.
* The single Google-provider round trip performed by `check_availability`
  (the `freebusy` query) is modelled as an input of type
  `Except HttpError (List Interval)`: `Except.error` is the provider
  raising `HttpError`, `Except.ok busy` is the provider's busy list.
* Python `datetime` objects that may or may not carry a timezone are
  modelled by `PyDateTime`, whose `tzinfo` field is `none` for a naive
  timestamp and `some offset` for an aware one.
-/

namespace CalendarAgent

/-- A busy period as consumed by the slot sweep: the two instants parsed
from the provider dict's start/end fields (Python's `end` is the keyword
`end` in Lean, so the field is named `stop`). -/
structure Interval where
  start : Int
  stop : Int
deriving DecidableEq, Repr

/-- A provider failure (`googleapiclient.errors.HttpError`), identified by
its status code. -/
structure HttpError where
  code : Nat
deriving DecidableEq, Repr

/-- A suggested slot dict as built at lines 96-100 of calendar_utils.py:
start, end and duration_minutes. -/
structure Slot where
  start : Int
  stop : Int
  duration_minutes : Int
deriving DecidableEq, Repr

/-- The overlap test of line 91 of calendar_utils.py, on two half-open
intervals: `current_time < busy_end and slot_end > busy_start`. -/
def overlaps (A B : Interval) : Bool :=
  A.start < B.stop && A.stop > B.start

/-- The inner for-loop of `suggest_available_slots` (lines 83-93): the
candidate `[current_time, slot_end)` is available iff no busy period
satisfies the line-91 test (the loop breaks at the first hit; scanning
all members with `all` is equivalent). -/
def is_available (current_time slot_end : Int) (busy_periods : List Interval) : Bool :=
  busy_periods.all fun b => !(current_time < b.stop && slot_end > b.start)

/-- `check_availability` (lines 37-61 of calendar_utils.py): performs the
one freebusy query and returns `events_result[calendars][id][busy]`
unchanged; an `HttpError` is logged and re-raised.  The window arguments
only parameterize the query itself. -/
def check_availability (start_date end_date : Int)
    (fetch : Except HttpError (List Interval)) : Except HttpError (List Interval) :=
  fetch

/-- The while-loop of `suggest_available_slots` (lines 78-103): while
`current_time + duration <= day_end`, test the candidate against every
busy period, append it when free, and advance `current_time` by the
hard-coded 30 minutes of line 103. -/
def slot_loop (day_end duration_minutes : Int) (busy_periods : List Interval)
    (current_time : Int) : List Slot :=
  if current_time + duration_minutes ≤ day_end then
    let slot_end := current_time + duration_minutes
    (if is_available current_time slot_end busy_periods then
      [⟨current_time, slot_end, duration_minutes⟩]
    else []) ++ slot_loop day_end duration_minutes busy_periods (current_time + 30)
  else []
termination_by (day_end - duration_minutes - current_time + 30).toNat
decreasing_by
  simp_wf
  omega

/-- `suggest_available_slots` (lines 63-114 of calendar_utils.py).
`target_midnight` is midnight of the (localized) target date, so
`replace(hour=h, minute=0, second=0, microsecond=0)` is
`target_midnight + 60*h`.  The Python defaults are duration_minutes=60,
start_hour=9, end_hour=17; they are made explicit arguments here.  The
busy set is fetched once, via `check_availability`, before the sweep;
any exception propagates (lines 112-114 re-raise). -/
def suggest_available_slots (target_midnight : Int)
    (fetch : Except HttpError (List Interval))
    (duration_minutes start_hour end_hour : Int) :
    Except HttpError (List Slot) :=
  let day_start := target_midnight + 60 * start_hour
  let day_end := target_midnight + 60 * end_hour
  match check_availability day_start day_end fetch with
  | .error e => .error e
  | .ok busy_periods => .ok (slot_loop day_end duration_minutes busy_periods day_start)

/-- The candidate sweep of `slot_loop` stripped of the availability filter:
the starts visited by the while-loop, i.e. `day_start`, `day_start + 30`,
... as long as the candidate end stays within `day_end`. -/
def candidate_starts (day_end duration_minutes : Int) (current_time : Int) : List Int :=
  if current_time + duration_minutes ≤ day_end then
    current_time :: candidate_starts day_end duration_minutes (current_time + 30)
  else []
termination_by (day_end - duration_minutes - current_time + 30).toNat
decreasing_by
  simp_wf
  omega

/-- Fuel-indexed version of `slot_loop`: performs at most `fuel` iterations
of the while-loop, returning the slots collected so far when the fuel runs
out.  Used to state that the loop terminates within an explicit number of
iterations. -/
def slot_loop_fuel (fuel : Nat) (day_end duration_minutes : Int)
    (busy_periods : List Interval) (current_time : Int) : List Slot :=
  match fuel with
  | 0 => []
  | fuel + 1 =>
    if current_time + duration_minutes ≤ day_end then
      let slot_end := current_time + duration_minutes
      (if is_available current_time slot_end busy_periods then
        [⟨current_time, slot_end, duration_minutes⟩]
      else []) ++ slot_loop_fuel fuel day_end duration_minutes busy_periods (current_time + 30)
    else []

/-- A Python `datetime` value: calendar fields plus `tzinfo`, which is
`none` for a naive timestamp and `some offset` (UTC offset in minutes)
for a timezone-aware one. -/
structure PyDateTime where
  year : Nat
  month : Nat
  day : Nat
  hour : Nat
  minute : Nat
  second : Nat
  tzinfo : Option Int
deriving DecidableEq, Repr

/-- The first six fields of the struct returned by
`parsedatetime.Calendar.parse`: year, month, day, hour, minute, second. -/
structure TimeStruct where
  year : Nat
  month : Nat
  day : Nat
  hour : Nat
  minute : Nat
  second : Nat
deriving DecidableEq, Repr

/-- `datetime(*time_struct[:6])` at line 26 of agent.py: a datetime built
from the six calendar fields only, hence with `tzinfo=None` (naive). -/
def datetime_from_struct (t : TimeStruct) : PyDateTime :=
  ⟨t.year, t.month, t.day, t.hour, t.minute, t.second, none⟩

/-- `parse_natural_date` (lines 19-29 of agent.py).  Inputs are the result
of the `parsedatetime` call `cal.parse(date_str)` — the pair
`(time_struct, parse_status)`, where status 0 means the natural-language
grammar found nothing — and the result the `dateutil` strict parser
`parser.parse(date_str)` would give for the same string.  If
`parse_status == 0` the function falls back to `parser.parse`; otherwise
it returns `datetime(*time_struct[:6])`. -/
def parse_natural_date (time_struct : TimeStruct) (parse_status : Nat)
    (dateutil_result : PyDateTime) : PyDateTime :=
  if parse_status = 0 then dateutil_result
  else datetime_from_struct time_struct

/-- Modelled from the spec: the design-note combinator for an ordered list
of parser strategies, each `tryParse(text) -> Instant | failure`; the
result is the first strategy that succeeds, and `fallback` is the terminal
strict parser that ends the chain. -/
def try_parse_chain (strategies : List (Option PyDateTime))
    (fallback : PyDateTime) : PyDateTime :=
  match strategies with
  | [] => fallback
  | some d :: _ => d
  | none :: rest => try_parse_chain rest fallback

/-- The outcome of the natural-language strategy inside
`parse_natural_date`, as an `Option`: `none` when `parse_status == 0`,
otherwise the naive datetime built from the time struct. -/
def natural_language_result (time_struct : TimeStruct) (parse_status : Nat) :
    Option PyDateTime :=
  if parse_status = 0 then none else some (datetime_from_struct time_struct)

/-- The normalization at lines 124-127 of calendar_utils.py (`book_event`):
a naive datetime is localized to the configured calendar timezone
(`self.timezone.localize`); an aware one is left unchanged. -/
def book_event_localize (calendar_tz_offset : Int) (t : PyDateTime) : PyDateTime :=
  if t.tzinfo = none then { t with tzinfo := some calendar_tz_offset } else t

/-- Whether a list of busy intervals is sorted by start time ascending. -/
def sorted_by_start (l : List Interval) : Bool :=
  match l with
  | [] => true
  | [_] => true
  | a :: b :: rest => decide (a.start ≤ b.start) && sorted_by_start (b :: rest)

/-- Modelled from the spec: `suggestSlots` as §4.2 words it, with
`stepMinutes` an explicit tunable parameter — candidates start at
`window_start`, advance by `step`, have length `dur`, stop once the
candidate end exceeds `window_end`, and free ones are kept.  Used only to
compare the spec's tunable-step reading with the code's fixed 30-minute
advance. -/
def suggestSlots_spec (window_start window_end dur step : Int)
    (busy : List Interval) (fuel : Nat) : List Slot :=
  match fuel with
  | 0 => []
  | fuel + 1 =>
    if window_start + dur ≤ window_end then
      (if is_available window_start (window_start + dur) busy then
        [⟨window_start, window_start + dur, dur⟩]
      else []) ++ suggestSlots_spec (window_start + step) window_end dur step busy fuel
    else []

/-! ## Helper lemmas about the slot sweep -/

lemma slot_loop_mem {d dur : Int} {busy : List Interval} {c : Int} {s : Slot}
    (hs : s ∈ slot_loop d dur busy c) :
    is_available s.start s.stop busy = true ∧ s.stop = s.start + dur ∧
      s.duration_minutes = dur ∧ c ≤ s.start ∧ s.stop ≤ d ∧
      ∃ k : Nat, s.start = c + 30 * k := by
  induction c using slot_loop.induct d dur busy with
  | case1 x hx ih =>
    rw [slot_loop, if_pos hx] at hs
    rcases List.mem_append.mp hs with h | h
    · have hav : is_available x (x + dur) busy = true := by
        by_contra hav
        simp [hav] at h
      have hsx : s = ⟨x, x + dur, dur⟩ := by
        simp [hav] at h
        exact h
      subst hsx
      refine ⟨hav, rfl, rfl, le_refl _, hx, 0, by ring⟩
    · obtain ⟨h1, h2, h3, h4, h5, k, hk⟩ := ih h
      exact ⟨h1, h2, h3, by omega, h5, k + 1, by push_cast at hk ⊢; omega⟩
  | case2 x hx =>
    rw [slot_loop, if_neg hx] at hs
    simp at hs


lemma slot_loop_eq_filter (d dur : Int) (busy : List Interval) (c : Int) :
    slot_loop d dur busy c =
      ((candidate_starts d dur c).filter (fun x => is_available x (x + dur) busy)).map
        (fun x => ⟨x, x + dur, dur⟩) := by
  induction c using slot_loop.induct d dur busy with
  | case1 x hx ih =>
    rw [slot_loop, if_pos hx, candidate_starts, if_pos hx, ih]
    by_cases hav : is_available x (x + dur) busy
    · simp [hav]
    · simp [hav]
  | case2 x hx =>
    rw [slot_loop, if_neg hx, candidate_starts, if_neg hx]
    simp

lemma candidate_starts_mem (d dur : Int) (c x : Int) :
    x ∈ candidate_starts d dur c ↔ (∃ k : Nat, x = c + 30 * k) ∧ x + dur ≤ d := by
  constructor
  · intro hx
    induction c using candidate_starts.induct d dur with
    | case1 y hy ih =>
      rw [candidate_starts, if_pos hy] at hx
      rcases List.mem_cons.mp hx with h | h
      · exact ⟨⟨0, by omega⟩, by omega⟩
      · obtain ⟨⟨k, hk⟩, hle⟩ := ih h
        exact ⟨⟨k + 1, by push_cast at hk ⊢; omega⟩, hle⟩
    | case2 y hy =>
      rw [candidate_starts, if_neg hy] at hx
      simp at hx
  · rintro ⟨⟨k, hk⟩, hle⟩
    induction k generalizing c with
    | zero =>
      have hxc : x = c := by omega
      subst hxc
      rw [candidate_starts, if_pos hle]
      exact List.mem_cons_self _ _
    | succ k ih =>
      have hcond : c + dur ≤ d := by push_cast at hk; omega
      rw [candidate_starts, if_pos hcond]
      have hmem : x ∈ candidate_starts d dur (c + 30) := by
        have hk2 : x = c + 30 + 30 * (k : Int) := by push_cast at hk ⊢; omega
        exact ih _ hk2
      exact List.mem_cons_of_mem _ hmem

lemma candidate_starts_length (d dur : Int) (c : Int) :
    (candidate_starts d dur c).length ≤ (d - dur - c).toNat / 30 + 1 := by
  induction c using candidate_starts.induct d dur with
  | case1 x hx ih =>
    rw [candidate_starts, if_pos hx]
    by_cases h2 : x + 30 + dur ≤ d
    · have := ih
      simp only [List.length_cons]
      omega
    · rw [candidate_starts, if_neg h2]
      simp
  | case2 x hx =>
    rw [candidate_starts, if_neg hx]
    simp

lemma slot_loop_start_lb {d dur : Int} {busy : List Interval} {c : Int} {s : Slot}
    (hs : s ∈ slot_loop d dur busy c) : c ≤ s.start :=
  (slot_loop_mem hs).2.2.2.1

lemma slot_loop_pairwise (d dur : Int) (busy : List Interval) (c : Int) :
    (slot_loop d dur busy c).Pairwise (fun a b => a.start < b.start) := by
  induction c using slot_loop.induct d dur busy with
  | case1 x hx ih =>
    rw [slot_loop, if_pos hx]
    by_cases hav : is_available x (x + dur) busy
    · simp only [hav, if_pos]
      refine List.Pairwise.cons ?_ ih
      intro s hs
      have := slot_loop_start_lb hs
      simp only [List.singleton_append] at *
      omega
    · simp [hav, ih]
  | case2 x hx =>
    rw [slot_loop, if_neg hx]
    exact List.Pairwise.nil

lemma slot_loop_fuel_eq {d dur : Int} {busy : List Interval} {c : Int} (n : Nat)
    (hn : d - dur - c < 30 * n) :
    slot_loop_fuel n d dur busy c = slot_loop d dur busy c := by
  induction n generalizing c with
  | zero =>
    rw [slot_loop]
    rw [if_neg (by omega)]
    rfl
  | succ n ih =>
    rw [slot_loop]
    by_cases hc : c + dur ≤ d
    · rw [if_pos hc, slot_loop_fuel, if_pos hc, ih (by omega)]
    · rw [if_neg hc, slot_loop_fuel, if_neg hc]

lemma suggest_eval (t dur sh eh : Int) (busy : List Interval) (n : Nat)
    (hn : t + 60 * eh - dur - (t + 60 * sh) < 30 * n) :
    suggest_available_slots t (.ok busy) dur sh eh =
      .ok (slot_loop_fuel n (t + 60 * eh) dur busy (t + 60 * sh)) := by
  rw [suggest_available_slots, check_availability, slot_loop_fuel_eq n hn]


/-! ## Claim theorems -/

/-- C1: Slot freedom — for every target date, duration, and busy set
returned by the single provider fetch, every slot returned by
`suggest_available_slots` overlaps no interval of that busy set (the
timezone conversion preserves each busy instant, so the converted
endpoints are the ones stored in `busy`). -/
theorem slot_freedom (t dur sh eh : Int) (busy : List Interval) (slots : List Slot)
    (h : suggest_available_slots t (Except.ok busy) dur sh eh = Except.ok slots) :
    ∀ s ∈ slots, ∀ b ∈ busy, overlaps ⟨s.start, s.stop⟩ b = false := by
  have hslots : slots = slot_loop (t + 60 * eh) dur busy (t + 60 * sh) := by
    rw [suggest_available_slots, check_availability] at h
    exact (Except.ok.inj h).symm
  subst hslots
  intro s hs b hb
  have hav := (slot_loop_mem hs).1
  rw [is_available, List.all_eq_true] at hav
  have h2 := hav b hb
  simp only [Bool.not_eq_true'] at h2
  exact h2

/-- Witness for C1 at a concrete input: busy 10:00-11:00 on a 09:00-12:00
window with duration 60 yields the slots 09:00-10:00 and 11:00-12:00,
neither of which overlaps the busy interval. -/
theorem slot_freedom_witness :
    suggest_available_slots 0 (Except.ok [⟨600, 660⟩]) 60 9 12 =
      Except.ok [⟨540, 600, 60⟩, ⟨660, 720, 60⟩] ∧
    ∀ s ∈ [(⟨540, 600, 60⟩ : Slot), ⟨660, 720, 60⟩], ∀ b ∈ [(⟨600, 660⟩ : Interval)],
      overlaps ⟨s.start, s.stop⟩ b = false := by
  have h : suggest_available_slots 0 (Except.ok [⟨600, 660⟩]) 60 9 12 =
      Except.ok [⟨540, 600, 60⟩, ⟨660, 720, 60⟩] := by
    rw [suggest_eval 0 60 9 12 _ 10 (by decide)]
    rfl
  exact ⟨h, slot_freedom 0 60 9 12 _ _ h⟩

/-- C2: Slot containment — every slot returned by
`suggest_available_slots` lies within the working-hours window
(start at or after `day_start`, end at or before `day_end`) and has the
full requested duration, so no partial or truncated slot is proposed. -/
theorem slot_containment (t dur sh eh : Int) (busy : List Interval) (slots : List Slot)
    (h : suggest_available_slots t (Except.ok busy) dur sh eh = Except.ok slots) :
    ∀ s ∈ slots,
      t + 60 * sh ≤ s.start ∧ s.stop ≤ t + 60 * eh ∧ s.stop = s.start + dur := by
  have hslots : slots = slot_loop (t + 60 * eh) dur busy (t + 60 * sh) := by
    rw [suggest_available_slots, check_availability] at h
    exact (Except.ok.inj h).symm
  subst hslots
  intro s hs
  obtain ⟨-, h2, -, h4, h5, -⟩ := slot_loop_mem hs
  exact ⟨h4, h5, h2⟩

/-- Witness for C2 at a concrete input: a 120-minute request on a
09:00-11:00 window returns exactly the slot 09:00-11:00, which is
contained in the window and has the full duration. -/
theorem slot_containment_witness :
    suggest_available_slots 0 (Except.ok []) 120 9 11 =
      Except.ok [⟨540, 660, 120⟩] ∧
    ∀ s ∈ [(⟨540, 660, 120⟩ : Slot)],
      (0 : Int) + 60 * 9 ≤ s.start ∧ s.stop ≤ 0 + 60 * 11 ∧ s.stop = s.start + 120 := by
  have h : suggest_available_slots 0 (Except.ok []) 120 9 11 =
      Except.ok [⟨540, 660, 120⟩] := by
    rw [suggest_eval 0 120 9 11 _ 5 (by decide)]
    rfl
  exact ⟨h, slot_containment 0 120 9 11 _ _ h⟩

/-- C3: Half-open overlap correctness — the line-91 overlap test is
symmetric, and an interval ending exactly at another's start never
overlaps it, in either order. -/
theorem overlap_halfopen (A B : Interval) :
    overlaps A B = overlaps B A ∧
    (A.stop = B.start → overlaps A B = false ∧ overlaps B A = false) := by
  constructor
  · simp only [overlaps, gt_iff_lt]
    exact Bool.and_comm _ _
  · intro h
    constructor <;> simp [overlaps, h]

/-- Witness for C3 at a concrete input: [09:00,10:00) and [10:00,11:00)
are symmetric under the test and do not overlap. -/
theorem overlap_halfopen_witness :
    overlaps ⟨540, 600⟩ ⟨600, 660⟩ = overlaps ⟨600, 660⟩ ⟨540, 600⟩ ∧
    overlaps ⟨540, 600⟩ ⟨600, 660⟩ = false ∧
    overlaps ⟨600, 660⟩ ⟨540, 600⟩ = false :=
  ⟨(overlap_halfopen ⟨540, 600⟩ ⟨600, 660⟩).1,
   (overlap_halfopen ⟨540, 600⟩ ⟨600, 660⟩).2 rfl⟩

/-- C4 counterexample: with duration 0 on the default 09:00-17:00 window
and an empty busy set, the sweep yields 17 slots, exceeding the claimed
bound (window.end - window.start) / stepMinutes = 480 / 30 = 16; the
claimed bound fails for the code as written. -/
theorem candidate_enumeration_cex :
    (suggest_available_slots 0 (Except.ok []) 0 9 17).map List.length = Except.ok 17 ∧
    ((0 + 60 * 17 : Int) - (0 + 60 * 9)) / 30 = 16 := by
  constructor
  · rw [suggest_eval 0 0 9 17 [] 17 (by decide)]
    rfl
  · decide

/-- C4 amended: `suggest_available_slots` enumerates candidates starting
at the window start, advancing by the fixed, hard-coded 30 minutes (there
is no step parameter), each of length `duration_minutes`, stopping once
the candidate end exceeds the window end; the free candidates are kept in
chronological order, and for positive durations the sequence is finite
with length at most (window.end - window.start) / 30 + 1. -/
theorem candidate_enumeration (t dur sh eh : Int) (busy : List Interval)
    (slots : List Slot)
    (h : suggest_available_slots t (Except.ok busy) dur sh eh = Except.ok slots) :
    slots = ((candidate_starts (t + 60 * eh) dur (t + 60 * sh)).filter
        (fun x => is_available x (x + dur) busy)).map (fun x => ⟨x, x + dur, dur⟩) ∧
    (∀ x, x ∈ candidate_starts (t + 60 * eh) dur (t + 60 * sh) ↔
        ((∃ k : Nat, x = t + 60 * sh + 30 * k) ∧ x + dur ≤ t + 60 * eh)) ∧
    slots.Pairwise (fun a b => a.start < b.start) ∧
    (1 ≤ dur → slots.length ≤ ((t + 60 * eh) - (t + 60 * sh)).toNat / 30 + 1) := by
  have hslots : slots = slot_loop (t + 60 * eh) dur busy (t + 60 * sh) := by
    rw [suggest_available_slots, check_availability] at h
    exact (Except.ok.inj h).symm
  subst hslots
  refine ⟨slot_loop_eq_filter _ _ _ _, fun x => candidate_starts_mem _ _ _ _,
    slot_loop_pairwise _ _ _ _, fun hdur => ?_⟩
  have h1 : (slot_loop (t + 60 * eh) dur busy (t + 60 * sh)).length ≤
      (candidate_starts (t + 60 * eh) dur (t + 60 * sh)).length := by
    rw [slot_loop_eq_filter, List.length_map]
    exact List.length_filter_le _ _
  have h2 := candidate_starts_length (t + 60 * eh) dur (t + 60 * sh)
  omega

/-- Witness for C4 (amended) at a concrete input: the 09:00-10:00 window
with duration 60 and empty busy set. -/
theorem candidate_enumeration_witness :
    suggest_available_slots 0 (Except.ok []) 60 9 10 = Except.ok [⟨540, 600, 60⟩] ∧
    ([(⟨540, 600, 60⟩ : Slot)] =
      ((candidate_starts (0 + 60 * 10) 60 (0 + 60 * 9)).filter
        (fun x => is_available x (x + 60) [])).map (fun x => ⟨x, x + 60, 60⟩) ∧
    (∀ x, x ∈ candidate_starts (0 + 60 * 10) 60 (0 + 60 * 9) ↔
        ((∃ k : Nat, x = 0 + 60 * 9 + 30 * k) ∧ x + 60 ≤ 0 + 60 * 10)) ∧
    ([(⟨540, 600, 60⟩ : Slot)]).Pairwise (fun a b => a.start < b.start) ∧
    (1 ≤ (60 : Int) → ([(⟨540, 600, 60⟩ : Slot)]).length ≤
        ((0 + 60 * 10 : Int) - (0 + 60 * 9)).toNat / 30 + 1)) := by
  have h : suggest_available_slots 0 (Except.ok []) 60 9 10 =
      Except.ok [⟨540, 600, 60⟩] := by
    rw [suggest_eval 0 60 9 10 _ 3 (by decide)]
    rfl
  exact ⟨h, candidate_enumeration 0 60 9 10 [] _ h⟩

/-- C5 counterexample: on an empty 09:00-17:00 window with duration 60 the
code does not return the 7 hourly slots the claim asserts (it returns 15
slots at the fixed 30-minute step). -/
theorem exhaustiveness_cex :
    suggest_available_slots 0 (Except.ok []) 60 9 17 ≠
      Except.ok [⟨540, 600, 60⟩, ⟨600, 660, 60⟩, ⟨660, 720, 60⟩, ⟨720, 780, 60⟩,
        ⟨780, 840, 60⟩, ⟨840, 900, 60⟩, ⟨900, 960, 60⟩] := by
  rw [suggest_eval 0 60 9 17 [] 17 (by decide)]
  intro hcontra
  exact absurd (Except.ok.inj hcontra) (by decide)

/-- C5 amended: on an empty 09:00-17:00 window with duration 60 the code
yields exactly 15 slots, every 30 minutes from 09:00-10:00 up to
16:00-17:00 (the step is the fixed 30 minutes, not 60). -/
theorem exhaustiveness_step30 :
    suggest_available_slots 0 (Except.ok []) 60 9 17 =
      Except.ok [⟨540, 600, 60⟩, ⟨570, 630, 60⟩, ⟨600, 660, 60⟩, ⟨630, 690, 60⟩,
        ⟨660, 720, 60⟩, ⟨690, 750, 60⟩, ⟨720, 780, 60⟩, ⟨750, 810, 60⟩,
        ⟨780, 840, 60⟩, ⟨810, 870, 60⟩, ⟨840, 900, 60⟩, ⟨870, 930, 60⟩,
        ⟨900, 960, 60⟩, ⟨930, 990, 60⟩, ⟨960, 1020, 60⟩] := by
  rw [suggest_eval 0 60 9 17 [] 17 (by decide)]
  rfl

/-- C6 counterexample: `check_availability` returns the provider's busy
list unchanged, so an unsorted response stays unsorted and an interval
entirely outside the queried window is still returned — contradicting the
claimed convert/filter/sort postcondition. -/
theorem compute_busy_cex :
    check_availability 540 1020 (Except.ok [⟨660, 720⟩, ⟨0, 10⟩]) =
      Except.ok [⟨660, 720⟩, ⟨0, 10⟩] ∧
    sorted_by_start [⟨660, 720⟩, ⟨0, 10⟩] = false ∧
    overlaps ⟨0, 10⟩ ⟨540, 1020⟩ = false :=
  ⟨rfl, rfl, rfl⟩

/-- C6 amended: `check_availability` performs the single freebusy fetch
and returns the provider's busy list unchanged — no timezone conversion,
no filtering to the window, no sorting; conversion to the calendar
timezone happens per busy interval inside `suggest_available_slots`'
overlap check. -/
theorem compute_busy_raw (start_date end_date : Int)
    (fetch : Except HttpError (List Interval)) :
    check_availability start_date end_date fetch = fetch := rfl

/-- C7: Provider-failure propagation — when the provider fetch fails,
`check_availability` re-raises the error unchanged and
`suggest_available_slots` fails with the same error; no retry happens and
no partial result is returned. -/
theorem provider_failure_propagation (s e t dur sh eh : Int) (err : HttpError) :
    check_availability s e (Except.error err) = Except.error err ∧
    suggest_available_slots t (Except.error err) dur sh eh = Except.error err :=
  ⟨rfl, rfl⟩

/-- C8 counterexample: when `parsedatetime` succeeds (status 1),
`parse_natural_date` returns `datetime(*time_struct[:6])`, whose `tzinfo`
is `None` — a naive instant escapes the normalizer, contradicting the
claimed timezone-aware invariant. -/
theorem tz_invariant_cex :
    (parse_natural_date ⟨2025, 1, 15, 10, 0, 0⟩ 1
      ⟨2025, 1, 15, 9, 0, 0, some 0⟩).tzinfo = none := rfl

/-- C8 amended: `parse_natural_date` returns a naive datetime whenever the
natural-language parse succeeds, so naive timestamps are legal past the
normalizer; `book_event` compensates by localizing naive inputs to the
calendar timezone, so after its normalization every instant carries an
offset. -/
theorem naive_past_normalizer (ts : TimeStruct) (s : Nat) (du : PyDateTime)
    (hs : s ≠ 0) (tz : Int) (d : PyDateTime) :
    (parse_natural_date ts s du).tzinfo = none ∧
    (book_event_localize tz d).tzinfo.isSome = true := by
  constructor
  · rw [parse_natural_date, if_neg hs]
    rfl
  · rw [book_event_localize]
    by_cases h : d.tzinfo = none
    · simp [h]
    · simp only [h, if_false]
      cases hd : d.tzinfo with
      | none => exact absurd hd h
      | some o => simp [hd]

/-- Witness for C8 (amended) at a concrete input. -/
theorem naive_past_normalizer_witness :
    (parse_natural_date ⟨2025, 7, 1, 14, 30, 0⟩ 3
      ⟨2025, 7, 1, 0, 0, 0, none⟩).tzinfo = none ∧
    (book_event_localize 330 ⟨2025, 7, 1, 14, 30, 0, none⟩).tzinfo.isSome = true :=
  naive_past_normalizer ⟨2025, 7, 1, 14, 30, 0⟩ 3 ⟨2025, 7, 1, 0, 0, 0, none⟩
    (by decide) 330 ⟨2025, 7, 1, 14, 30, 0, none⟩

/-- C9: Parser chain order — `parse_natural_date` equals the ordered
first-success-wins chain whose first strategy is the natural-language
parse and whose terminal fallback is the strict `dateutil` parser: natural
language is tried first, the strict parser is consulted only on failure,
and whichever succeeds first determines the result. -/
theorem parser_chain_first_success (ts : TimeStruct) (s : Nat) (du : PyDateTime) :
    parse_natural_date ts s du =
      try_parse_chain [natural_language_result ts s, some du] du ∧
    (s ≠ 0 → parse_natural_date ts s du = datetime_from_struct ts) ∧
    (s = 0 → parse_natural_date ts s du = du) := by
  by_cases h : s = 0 <;>
    simp [parse_natural_date, natural_language_result, try_parse_chain, h]

/-- Witness for C9 at concrete inputs: a successful natural-language parse
(status 1) wins over the fallback, and a failed one (status 0) falls back. -/
theorem parser_chain_witness :
    (parse_natural_date ⟨2025, 1, 15, 10, 0, 0⟩ 1 ⟨1999, 1, 1, 0, 0, 0, none⟩ =
      try_parse_chain [natural_language_result ⟨2025, 1, 15, 10, 0, 0⟩ 1,
        some ⟨1999, 1, 1, 0, 0, 0, none⟩] ⟨1999, 1, 1, 0, 0, 0, none⟩) ∧
    parse_natural_date ⟨2025, 1, 15, 10, 0, 0⟩ 1 ⟨1999, 1, 1, 0, 0, 0, none⟩ =
      datetime_from_struct ⟨2025, 1, 15, 10, 0, 0⟩ ∧
    parse_natural_date ⟨2025, 1, 15, 10, 0, 0⟩ 0 ⟨1999, 1, 1, 0, 0, 0, none⟩ =
      ⟨1999, 1, 1, 0, 0, 0, none⟩ :=
  ⟨(parser_chain_first_success ⟨2025, 1, 15, 10, 0, 0⟩ 1 ⟨1999, 1, 1, 0, 0, 0, none⟩).1,
   (parser_chain_first_success ⟨2025, 1, 15, 10, 0, 0⟩ 1
      ⟨1999, 1, 1, 0, 0, 0, none⟩).2.1 (by decide),
   (parser_chain_first_success ⟨2025, 1, 15, 10, 0, 0⟩ 0
      ⟨1999, 1, 1, 0, 0, 0, none⟩).2.2 rfl⟩

/-- C10: Unconditional termination of the slot sweep — for every window,
every integer duration (zero and negative included) and every finite busy
list, the while-loop completes within an explicit finite number of
iterations (the fuel-indexed loop with that much fuel already computes the
full result), and the output length is bounded accordingly. -/
theorem slot_sweep_terminates (d dur : Int) (busy : List Interval) (c : Int) :
    slot_loop_fuel ((d - dur - c).toNat / 30 + 1) d dur busy c =
      slot_loop d dur busy c ∧
    (slot_loop d dur busy c).length ≤ (d - dur - c).toNat / 30 + 1 := by
  constructor
  · exact slot_loop_fuel_eq _ (by omega)
  · have h1 : (slot_loop d dur busy c).length ≤ (candidate_starts d dur c).length := by
      rw [slot_loop_eq_filter, List.length_map]
      exact List.length_filter_le _ _
    have h2 := candidate_starts_length d dur c
    omega

end CalendarAgent
